import Mathlib

/-!
Verification of the `tofu` font builder (files `tofu.py` and `build.py`).

The repository builds a fallback font whose single visible glyph ("tofu")
is mapped onto essentially every Unicode code point.  This development is a
shallow embedding of the parts of the two Python source files that the
claims concern:

* the `TTGlyphPen` drawing sequence of `drawTofuGlyph` (tofu.py) together
  with the pen's `closePath` bookkeeping, enough to count contours and
  compute signed areas;
* the cmap dictionaries built in `createTtf` (tofu.py) and `_build_ttf`
  (build.py), modelled as functions from code points to optional glyph
  names;
* the glyph-selection logic of `_build_ttf` (build.py) in both its
  `support_composite` modes, modelled over an abstract source font;
* the horizontal-metrics construction of `createTtf` (tofu.py);
* the control flow of the pipeline driver `_run` (build.py) around the
  external `nanoemoji` subprocess call.

Machine integers do not overflow in any of this code (all quantities are
tiny), so coordinates are `Int` and code points are `Nat`.
-/

/-- `GLYPH_NAME = 'tofu'` — shared by both source files. -/
def GLYPH_NAME : String := "tofu"

/-- tofu.py `ADVANCE_WIDTH = 600`. -/
def ADVANCE_WIDTH : Int := 600

/-- tofu.py `BASELINE = 0`. -/
def BASELINE : Int := 0

/-- tofu.py `CAP_HEIGHT = 800`. -/
def CAP_HEIGHT : Int := 800

/-- tofu.py `STROKE_WIDTH = 50`. -/
def STROKE_WIDTH : Int := 50

/-- tofu.py `PADDING = 50`. -/
def PADDING : Int := 50

/-- tofu.py `class Rectangle`: four edge coordinates. -/
structure Rectangle where
  top : Int
  right : Int
  bottom : Int
  left : Int
deriving DecidableEq

/-- Width of a rectangle, `right - left`. -/
def Rectangle.width (r : Rectangle) : Int := r.right - r.left

/-- Height of a rectangle, `top - bottom`. -/
def Rectangle.height (r : Rectangle) : Int := r.top - r.bottom

/-- Inset a rectangle by `s` on all four sides.  tofu.py builds
`TOFU_INNER_RECT` exactly this way from `TOFU_OUTER_RECT` with
`s = STROKE_WIDTH`. -/
def Rectangle.inset (r : Rectangle) (s : Int) : Rectangle :=
  ⟨r.top - s, r.right - s, r.bottom + s, r.left + s⟩

/-- tofu.py `TOFU_OUTER_RECT`. -/
def TOFU_OUTER_RECT : Rectangle :=
  ⟨CAP_HEIGHT, ADVANCE_WIDTH - PADDING, BASELINE, PADDING⟩

/-- tofu.py `TOFU_INNER_RECT`. -/
def TOFU_INNER_RECT : Rectangle :=
  ⟨CAP_HEIGHT - STROKE_WIDTH, ADVANCE_WIDTH - PADDING - STROKE_WIDTH,
    BASELINE + STROKE_WIDTH, PADDING + STROKE_WIDTH⟩

/-!
### The TTGlyphPen model

`fontTools.pens.ttGlyphPen.TTGlyphPen` (used by `drawTofuGlyph`) records a
flat list of points plus the list `endPts` of contour-ending indices.
`moveTo`/`lineTo` append a point; `closePath` (with the default
`outputImpliedClosingLine=False`) drops a trailing point that duplicates
the contour's first point and then records the contour end.  The produced
glyph's `numberOfContours` is the length of `endPts`.
-/

/-- The pen state: the accumulated on-curve points and contour end indices. -/
structure PenState where
  points : List (Int × Int)
  endPts : List Nat
deriving DecidableEq

/-- A fresh `TTGlyphPen(None)`. -/
def penInit : PenState := ⟨[], []⟩

/-- `_addPoint`: both `moveTo` and `lineTo` append an on-curve point. -/
def penAddPoint (s : PenState) (pt : Int × Int) : PenState :=
  ⟨s.points ++ [pt], s.endPts⟩

/-- `TTGlyphPen.moveTo` (valid here: it is only called on a closed pen). -/
def penMoveTo (s : PenState) (pt : Int × Int) : PenState := penAddPoint s pt

/-- `TTGlyphPen.lineTo`. -/
def penLineTo (s : PenState) (pt : Int × Int) : PenState := penAddPoint s pt

/-- `TTGlyphPen.closePath`: drop a one-point path; otherwise, if the first
and last points of the current path coincide, drop the last point; then
record the contour end index. -/
def penClosePath (s : PenState) : PenState :=
  let endPt : Int := (s.points.length : Int) - 1
  if endPt = 0 ∨ (s.endPts ≠ [] ∧ endPt = ((s.endPts.getLastD 0 : Nat) : Int) + 1) then
    ⟨s.points.dropLast, s.endPts⟩
  else
    let startPt : Nat :=
      match s.endPts.getLast? with
      | some e => e + 1
      | none => 0
    let pts :=
      if s.points.getD startPt (0, 0) = s.points.getD (s.points.length - 1) (0, 0) then
        s.points.dropLast
      else
        s.points
    ⟨pts, s.endPts ++ [pts.length - 1]⟩

/-- `numberOfContours` of the glyph returned by `TTGlyphPen.glyph()`:
the number of recorded contour ends. -/
def PenState.numberOfContours (s : PenState) : Nat := s.endPts.length

/-- The drawing sequence of tofu.py `drawTofuGlyph`, abstracted over the
two rectangles it reads: outer rectangle from its bottom-left corner
clockwise, then the inner rectangle from its bottom-left corner
counter-clockwise, with a single `closePath` at the end. -/
def drawTofuPen (outer inner : Rectangle) : PenState :=
  let s := penMoveTo penInit (outer.left, outer.bottom)
  let s := penLineTo s (outer.left, outer.top)
  let s := penLineTo s (outer.right, outer.top)
  let s := penLineTo s (outer.right, outer.bottom)
  let s := penLineTo s (outer.left, outer.bottom)
  let s := penLineTo s (inner.left, inner.bottom)
  let s := penLineTo s (inner.right, inner.bottom)
  let s := penLineTo s (inner.right, inner.top)
  let s := penLineTo s (inner.left, inner.top)
  let s := penLineTo s (inner.left, inner.bottom)
  penClosePath s

set_option linter.unusedVariables false in
/-- tofu.py `drawTofuGlyph(strokeWidth = 50)`: the parameter is never
read; the outline is drawn from the module constants `TOFU_OUTER_RECT`
and `TOFU_INNER_RECT`. -/
def drawTofuGlyph (strokeWidth : Int := 50) : PenState :=
  drawTofuPen TOFU_OUTER_RECT TOFU_INNER_RECT

/-- Twice the signed area of the closed polygon through `ps` (shoelace
formula, positive for counter-clockwise traversal in y-up coordinates). -/
def shoelace2 (ps : List (Int × Int)) : Int :=
  match ps with
  | [] => 0
  | p :: _ =>
      ((ps.zip (ps.drop 1 ++ [p])).map
        (fun pq => pq.1.1 * pq.2.2 - pq.2.1 * pq.1.2)).sum

/-!
### Character map models

Both source files install a simple cmap subtable for code point 1
(`fb.setupCharacterMap({1: GLYPH_NAME})`) and append a format-13
many-to-one subtable whose dictionary is a comprehension over
`range(0x10FFFF + 1)`.  A Python dictionary whose keys are exactly the
code points satisfying a filter is modelled as the function returning
`some GLYPH_NAME` on those keys and `none` elsewhere.
-/

/-- tofu.py: the argument of `fb.setupCharacterMap`, the dict `{1: GLYPH_NAME}`. -/
def createTtf_simple_cmap : List (Nat × String) := [(1, GLYPH_NAME)]

/-- build.py: the argument of `fb.setupCharacterMap`, the dict `{1: GLYPH_NAME}`. -/
def build_simple_cmap : List (Nat × String) := [(1, GLYPH_NAME)]

/-- tofu.py `cmap_many_to_one.cmap`:
`{cp: GLYPH_NAME for cp in range(0x10FFFF + 1) if cp > 1}`. -/
def createTtf_cmap_many_to_one (cp : Nat) : Option String :=
  if cp ≤ 0x10FFFF ∧ 1 < cp then some GLYPH_NAME else none

/-- build.py `cmap_many_to_one.cmap`:
`{cp: GLYPH_NAME for cp in range(0x10FFFF + 1) if cp > 1 and cp != 0xFE0F}`. -/
def build_cmap_many_to_one (cp : Nat) : Option String :=
  if cp ≤ 0x10FFFF ∧ 1 < cp ∧ cp ≠ 0xFE0F then some GLYPH_NAME else none

/-!
### Glyph selection in build.py `_build_ttf`

The source font produced by nanoemoji is abstracted as the list of glyph
names returned by `font.getGlyphNames()` together with total maps giving
each glyph's `numberOfContours` (from the `glyf` table) and its `hmtx`
entry `(advanceWidth, leftSideBearing)`; `TTFont` lookups by a name of the
font never fail, which the total maps reflect.
-/

/-- Abstraction of the `TTFont` that `_build_ttf` post-processes. -/
structure SrcFont where
  glyphNames : List String
  numberOfContours : String → Int
  hmtx : String → Int × Int

/-- Python-dict assignment `d[k] = v` on an association list (all dicts
in the modelled code have unique keys): update the entry for `k` in
place, else append a new entry. -/
def dictSet {α : Type} (d : List (String × α)) (k : String) (v : α) : List (String × α) :=
  match d with
  | [] => [(k, v)]
  | p :: rest => if p.1 = k then (k, v) :: rest else p :: dictSet rest k v

/-- Python-dict deletion `del d[k]` on an association list with unique
keys: remove the entry for `k`. -/
def dictDel {α : Type} (d : List (String × α)) (k : String) : List (String × α) :=
  match d with
  | [] => []
  | p :: rest => if p.1 = k then rest else p :: dictDel rest k

/-- Python-dict lookup `d[k]` on an association list. -/
def dictGet {α : Type} (d : List (String × α)) (k : String) : Option α :=
  match d with
  | [] => none
  | p :: rest => if p.1 = k then some p.2 else dictGet rest k

/-- The `FLAGS.support_composite` branch of `_build_ttf`, restricted to
the data the claims concern: the final `glyph_order` and
`horizontal_metrics`.  Source steps, in order:
`glyph_order = [n for n in font.getGlyphNames() if n != 'space']`;
`horizontal_metrics = {n: fb.font['hmtx'][n] for n in glyph_order}`;
`horizontal_metrics[GLYPH_NAME] = horizontal_metrics[glyph_order[-1]]`;
`del horizontal_metrics[glyph_order[-1]]`;
`glyph_order[-1] = GLYPH_NAME`.
`glyph_order[-1]` on an empty list raises `IndexError`, hence `none`. -/
def compositeBuild (f : SrcFont) : Option (List String × List (String × (Int × Int))) :=
  let glyph_order := f.glyphNames.filter (fun n => n ≠ "space")
  match glyph_order.getLast? with
  | none => none
  | some lastName =>
      let hm := glyph_order.map (fun n => (n, f.hmtx n))
      let hm := dictSet hm GLYPH_NAME ((dictGet hm lastName).getD (0, 0))
      let hm := dictDel hm lastName
      some (glyph_order.dropLast ++ [GLYPH_NAME], hm)

/-- The selection loop of the `else` branch of `_build_ttf`:
`for n in font.getGlyphNames(): if n == '.notdef': continue;
glyph = fb.font['glyf'][n];  if glyph.numberOfContours: break`.
The state is the pair of the loop variable `n` and the name whose glyph
body is bound to `glyph`; both start unbound (`none`). -/
def simpleLoopAux (noc : String → Int) :
    List String → Option String × Option String → Option String × Option String
  | [], st => st
  | nm :: rest, (_, gVar) =>
      if nm = ".notdef" then simpleLoopAux noc rest (some nm, gVar)
      else if noc nm ≠ 0 then (some nm, some nm)
      else simpleLoopAux noc rest (some nm, some nm)

/-- The selection loop run on a source font: returns the final bindings of
`n` and `glyph` (`none` where Python would raise `NameError`). -/
def simpleLoop (f : SrcFont) : Option String × Option String :=
  simpleLoopAux f.numberOfContours f.glyphNames (none, none)

/-- The non-composite branch of `_build_ttf`: `glyph_order` is the literal
`['.notdef', GLYPH_NAME]` and `horizontal_metrics` maps `.notdef` to
`hmtx['.notdef']` and the tofu glyph to `hmtx[n]` for the loop's final
`n`.  `none` when the loop left `glyph` or `n` unbound (Python
`NameError`). -/
def simpleBuild (f : SrcFont) : Option (List String × List (String × (Int × Int))) :=
  match simpleLoop f with
  | (some n, some _) =>
      some ([".notdef", GLYPH_NAME],
        [(".notdef", f.hmtx ".notdef"), (GLYPH_NAME, f.hmtx n)])
  | _ => none

/-!
### Horizontal metrics in tofu.py `createTtf`
-/

/-- tofu.py `glyph_order = ['.notdef', GLYPH_NAME]`. -/
def createTtf_glyph_order : List String := [".notdef", GLYPH_NAME]

/-- The glyph dict of `createTtf`:
`{'.notdef': TTGlyphPen(None).glyph(), GLYPH_NAME: drawTofuGlyph()}`. -/
def createTtf_glyphs : List (String × PenState) :=
  [(".notdef", penInit), (GLYPH_NAME, drawTofuGlyph)]

/-- `glyf` table `xMin` after `FontBuilder.setupGlyf` recalculates bounds:
`calcBounds` of an empty point list is 0, otherwise the minimum
x-coordinate of the glyph's points. -/
def glyphXMin (g : PenState) : Int :=
  match g.points.map (fun p => p.1) with
  | [] => 0
  | x :: xs => xs.foldl min x

/-- tofu.py metrics construction:
`for name in glyph_order: metrics[name] = (ADVANCE_WIDTH, glyphTable[name].xMin)`. -/
def createTtf_metrics : List (String × (Int × Int)) :=
  createTtf_glyph_order.map
    (fun name => (name, (ADVANCE_WIDTH, glyphXMin ((dictGet createTtf_glyphs name).getD penInit))))

/-!
### Pipeline control flow in build.py

`_run` calls `_build_ttf` then `_create_css`.  `_build_ttf` invokes the
external compiler through `_compile_font`, whose body ends in
`subprocess.run(cmd)` — the `CompletedProcess` return value is discarded
and its exit status is never inspected (no `check=True`) — and returns the
expected output path.  `TTFont(ttf_file_path)` then raises if that file
does not exist; otherwise the tables are assembled, `fb.save` writes the
font, and `_create_css` writes the stylesheet.  The external world is
abstracted as the compiler's exit status and whether its expected output
file exists.
-/

/-- Outcome of the external `nanoemoji` invocation. -/
structure CompilerOutcome where
  exitCode : Int
  outputExists : Bool
deriving DecidableEq

/-- Result of a pipeline run: the ordered list of output files written,
tagged with whether the run completed or aborted with an exception. -/
inductive PipelineResult
  | completed (writes : List String)
  | aborted (writes : List String)
deriving DecidableEq

/-- build.py `_run`: subprocess exit status ignored; abort (with nothing
yet written) iff the expected compiler output file is missing; otherwise
write the font, then the stylesheet. -/
def run_pipeline (c : CompilerOutcome) : PipelineResult :=
  if c.outputExists then .completed ["tofu.ttf", "tofu.css"]
  else .aborted []

/-!
### Concrete source fonts used as inputs for the claims about `_build_ttf`
-/

/-- The font of spec scenario 3: glyphs `.notdef` (empty), `A` (empty),
`B` (2 contours), `C` (1 contour). -/
def scenarioFont : SrcFont :=
  { glyphNames := [".notdef", "A", "B", "C"],
    numberOfContours := fun n => if n = "B" then 2 else if n = "C" then 1 else 0,
    hmtx := fun n => if n = "B" then (640, 32) else (600, 0) }

/-- A source font with four glyphs, one of them named `space`. -/
def compositeFontExample : SrcFont :=
  { glyphNames := [".notdef", "A", "B", "space"],
    numberOfContours := fun _ => 1,
    hmtx := fun n => if n = "B" then (500, 7) else (600, 0) }

/-- A source font in which every glyph besides `.notdef` is empty. -/
def emptyGlyphsFont : SrcFont :=
  { glyphNames := [".notdef", "A", "B"],
    numberOfContours := fun _ => 0,
    hmtx := fun _ => (600, 0) }

/-!
### Helper lemmas about the dict operations and the selection loop
-/

/-- Looking up any key present in `l` in the dict built by mapping `h`
over `l` yields `h` of that key. -/
theorem dictGet_map_self {α : Type} (h : String → α) (k : String) :
    ∀ (l : List String), k ∈ l → dictGet (l.map (fun n => (n, h n))) k = some (h k) := by
  intro l
  induction l with
  | nil => intro hk; cases hk
  | cons a rest ih =>
      intro hk
      simp only [List.map_cons, dictGet]
      by_cases hak : a = k
      · subst hak; simp
      · rw [if_neg hak]
        rcases List.mem_cons.mp hk with h1 | h2
        · exact absurd h1.symm hak
        · exact ih h2

/-- After `d[k] = v`, looking up `k` yields `v`. -/
theorem dictGet_dictSet_self {α : Type} (k : String) (v : α) :
    ∀ d : List (String × α), dictGet (dictSet d k v) k = some v := by
  intro d
  induction d with
  | nil => simp [dictSet, dictGet]
  | cons p rest ih =>
      by_cases hp : p.1 = k
      · simp [dictSet, hp, dictGet]
      · simp only [dictSet, if_neg hp, dictGet]
        exact ih

/-- Deleting a different key does not change a lookup. -/
theorem dictGet_dictDel_ne {α : Type} (k k' : String) (hkk : k ≠ k') :
    ∀ d : List (String × α), dictGet (dictDel d k') k = dictGet d k := by
  intro d
  induction d with
  | nil => rfl
  | cons p rest ih =>
      by_cases hp : p.1 = k'
      · have hpk : p.1 ≠ k := fun hh => hkk (hh.symm.trans hp)
        simp only [dictDel, if_pos hp, dictGet, if_neg hpk]
      · simp only [dictDel, if_neg hp, dictGet]
        by_cases hpk : p.1 = k
        · rw [if_pos hpk, if_pos hpk]
        · rw [if_neg hpk, if_neg hpk]
          exact ih

/-- `Option.elim` over `some` as a `getD`. -/
theorem option_elim_some {α : Type} (o : Option α) (a : α) :
    o.elim (some a) some = some (o.getD a) := by
  cases o <;> rfl

/-- `Option.elim` with a `none` default is the identity. -/
theorem option_elim_none {α : Type} (o : Option α) :
    o.elim (none : Option α) some = o := by
  cases o <;> rfl

/-- If, among the glyphs other than `.notdef`, the first one with a
nonzero contour count is `g`, the selection loop stops at `g` and leaves
both `n` and `glyph` bound to it, whatever the bindings held before. -/
theorem simpleLoopAux_find (noc : String → Int) :
    ∀ (l : List String) (g : String),
      (l.filter (fun nm => nm ≠ ".notdef")).find? (fun nm => noc nm ≠ 0) = some g →
      ∀ st : Option String × Option String, simpleLoopAux noc l st = (some g, some g) := by
  intro l
  induction l with
  | nil => intro g hg st; simp at hg
  | cons nm rest ih =>
      intro g hg st
      obtain ⟨st1, st2⟩ := st
      by_cases hnd : nm = ".notdef"
      · subst hnd
        rw [List.filter_cons_of_neg (by simp)] at hg
        simp only [simpleLoopAux, if_pos rfl]
        exact ih g hg _
      · rw [List.filter_cons_of_pos (by simp [hnd])] at hg
        by_cases hc : noc nm = 0
        · rw [List.find?_cons_of_neg _ (by simp [hc])] at hg
          simp only [simpleLoopAux, if_neg hnd, if_neg (by simp [hc] : ¬ noc nm ≠ 0)]
          exact ih g hg _
        · rw [List.find?_cons_of_pos _ (by simp [hc])] at hg
          have hgc : nm = g := by
            simpa using hg
          subst hgc
          simp only [simpleLoopAux, if_neg hnd, if_pos hc]

/-- When every glyph of the list other than `.notdef` is empty, the
selection loop never breaks: `n` ends bound to the last glyph name (if
any) and `glyph` to the last non-`.notdef` glyph name (if any). -/
theorem simpleLoopAux_all_zero (noc : String → Int) :
    ∀ (l : List String), (∀ nm ∈ l, nm ≠ ".notdef" → noc nm = 0) →
      ∀ accN accG : Option String,
        simpleLoopAux noc l (accN, accG) =
          (l.getLast?.elim accN some,
           ((l.filter (fun nm => nm ≠ ".notdef")).getLast?).elim accG some) := by
  intro l
  induction l with
  | nil => intro _ accN accG; rfl
  | cons nm rest ih =>
      intro h accN accG
      have hrest : ∀ x ∈ rest, x ≠ ".notdef" → noc x = 0 :=
        fun x hx => h x (List.mem_cons_of_mem _ hx)
      by_cases hnd : nm = ".notdef"
      · subst hnd
        have step : simpleLoopAux noc (".notdef" :: rest) (accN, accG) =
            simpleLoopAux noc rest (some ".notdef", accG) := by
          simp [simpleLoopAux]
        rw [step, ih hrest, List.filter_cons_of_neg (by simp), List.getLast?_cons,
          option_elim_some]
        rfl
      · have hz : noc nm = 0 := h nm (List.mem_cons_self nm rest) hnd
        have step : simpleLoopAux noc (nm :: rest) (accN, accG) =
            simpleLoopAux noc rest (some nm, some nm) := by
          simp [simpleLoopAux, hnd, hz]
        rw [step, ih hrest, List.filter_cons_of_pos (by simp [hnd]),
          List.getLast?_cons, List.getLast?_cons, option_elim_some, option_elim_some]
        rfl

/-!
### Claim theorems
-/

/-- C1: the many-to-one character map covers exactly the universe minus
the exclusions.  In the build.py variant every code point `cp` with
`2 ≤ cp ≤ 0x10FFFF` and `cp ≠ 0xFE0F` is mapped to the tofu glyph and no
other code point is mapped — equivalently the mapped set is the two
maximal ranges `[2, 0xFE0E]` and `[0xFE10, 0x10FFFF]`; in the tofu.py
variant every code point in `[2, 0x10FFFF]` is mapped (one full range). -/
theorem C1_many_to_one_coverage :
    ∀ cp : Nat,
      (build_cmap_many_to_one cp = some GLYPH_NAME ↔
        2 ≤ cp ∧ cp ≤ 0x10FFFF ∧ cp ≠ 0xFE0F) ∧
      (build_cmap_many_to_one cp = some GLYPH_NAME ↔
        (2 ≤ cp ∧ cp ≤ 0xFE0E) ∨ (0xFE10 ≤ cp ∧ cp ≤ 0x10FFFF)) ∧
      (createTtf_cmap_many_to_one cp = some GLYPH_NAME ↔
        2 ≤ cp ∧ cp ≤ 0x10FFFF) := by
  intro cp
  refine ⟨?_, ?_, ?_⟩
  · unfold build_cmap_many_to_one
    split <;> rename_i h <;> simp <;> omega
  · unfold build_cmap_many_to_one
    split <;> rename_i h <;> simp <;> omega
  · unfold createTtf_cmap_many_to_one
    split <;> rename_i h <;> simp <;> omega

/-- C7: besides the many-to-one subtable, both variants install exactly
one single-codepoint cmap entry, mapping code point 1 to the tofu glyph;
1 is outside the range table; and every value referenced by either
subtable is the same target glyph name. -/
theorem C7_simple_cmap_entry :
    createTtf_simple_cmap = [(1, GLYPH_NAME)] ∧
    build_simple_cmap = [(1, GLYPH_NAME)] ∧
    createTtf_cmap_many_to_one 1 = none ∧
    build_cmap_many_to_one 1 = none ∧
    (∀ cp : Nat, createTtf_cmap_many_to_one cp = some GLYPH_NAME ∨
      createTtf_cmap_many_to_one cp = none) ∧
    (∀ cp : Nat, build_cmap_many_to_one cp = some GLYPH_NAME ∨
      build_cmap_many_to_one cp = none) := by
  refine ⟨rfl, rfl, by decide, by decide, ?_, ?_⟩
  · intro cp
    unfold createTtf_cmap_many_to_one
    split <;> simp
  · intro cp
    unfold build_cmap_many_to_one
    split <;> simp

/-- C10: `drawTofuGlyph` is a constant function of its `strokeWidth`
parameter — the parameter is never read, the outline being built from the
module-level `TOFU_OUTER_RECT` and `TOFU_INNER_RECT` constants. -/
theorem C10_strokeWidth_never_read :
    ∀ s1 s2 : Int, drawTofuGlyph s1 = drawTofuGlyph s2 :=
  fun _ _ => rfl

/-- C6 counterexample: for the outer rectangle
`top=800, right=550, bottom=0, left=50` and `strokeWidth = 400` we have
`2*400 ≥ min(width, height)`, yet `drawTofuGlyph 400` does not fail: it
returns the same one-contour glyph as `drawTofuGlyph 50`. -/
theorem C6_no_failure_at_400 :
    TOFU_OUTER_RECT = ⟨800, 550, 0, 50⟩ ∧
    min TOFU_OUTER_RECT.width TOFU_OUTER_RECT.height ≤ 2 * (400 : Int) ∧
    drawTofuGlyph 400 = drawTofuGlyph 50 ∧
    (drawTofuGlyph 400).numberOfContours = 1 := by
  refine ⟨by decide, by decide, rfl, by decide⟩

/-- C6 amended: `drawTofuGlyph` performs no degeneracy check at all — for
every `strokeWidth`, including values with
`strokeWidth*2 ≥ min(outer.width, outer.height)`, it returns the fixed
one-contour outline drawn from `TOFU_OUTER_RECT` and `TOFU_INNER_RECT`. -/
theorem C6_never_degenerate_error :
    ∀ strokeWidth : Int,
      drawTofuGlyph strokeWidth = drawTofuPen TOFU_OUTER_RECT TOFU_INNER_RECT ∧
      (drawTofuGlyph strokeWidth).numberOfContours = 1 := by
  intro s
  refine ⟨rfl, ?_⟩
  show (drawTofuPen TOFU_OUTER_RECT TOFU_INNER_RECT).numberOfContours = 1
  decide

/-- C2 counterexample: the built-in rectangles satisfy the claim's
validity condition (`strokeWidth*2 < min(width, height)`, and the inner
rectangle is the outer inset by the stroke width), yet the glyph produced
by `drawTofuGlyph` has one contour, not two: the single `closePath` closes
one 10-point contour containing both rectangle traversals. -/
theorem C2_not_two_contours :
    2 * STROKE_WIDTH < min TOFU_OUTER_RECT.width TOFU_OUTER_RECT.height ∧
    TOFU_INNER_RECT = TOFU_OUTER_RECT.inset STROKE_WIDTH ∧
    (drawTofuGlyph 50).numberOfContours = 1 ∧
    ¬ (drawTofuGlyph 50).numberOfContours = 2 := by
  refine ⟨by decide, by decide, by decide, by decide⟩

/-- C9 counterexample: when the external compiler exits with a nonzero
status but its expected output file exists, the pipeline does not abort —
`subprocess.run`'s exit status is never inspected — and the run completes,
writing both the font and the stylesheet. -/
theorem C9_nonzero_exit_not_aborting :
    (CompilerOutcome.mk 1 true).exitCode ≠ 0 ∧
    run_pipeline ⟨1, true⟩ = .completed ["tofu.ttf", "tofu.css"] := by
  refine ⟨by decide, rfl⟩

/-- C9 amended: the run completes iff the compiler's expected output file
exists (the subprocess exit status is ignored); a completed run has
written the font and then the stylesheet, and an aborted run has written
nothing. -/
theorem C9_abort_only_on_missing_output :
    ∀ c : CompilerOutcome,
      (run_pipeline c = .completed ["tofu.ttf", "tofu.css"] ↔ c.outputExists = true) ∧
      (run_pipeline c = .aborted [] ↔ c.outputExists = false) := by
  intro c
  unfold run_pipeline
  by_cases h : c.outputExists <;> simp [h]

/-- C5 counterexample: over glyphs `.notdef`, `A`, `B` all with zero
contours, simple-mode selection does not fail: the loop falls through and
the build continues with `B`, the last non-`.notdef` glyph, as the tofu
glyph. -/
theorem C5_selects_empty_glyph :
    emptyGlyphsFont.numberOfContours "A" = 0 ∧
    emptyGlyphsFont.numberOfContours "B" = 0 ∧
    simpleLoop emptyGlyphsFont = (some "B", some "B") ∧
    simpleBuild emptyGlyphsFont =
      some ([".notdef", GLYPH_NAME], [(".notdef", (600, 0)), (GLYPH_NAME, (600, 0))]) := by
  refine ⟨rfl, rfl, by decide, by decide⟩

/-- C3 counterexample: in `support_composite` mode over the glyph names
`.notdef, A, B, space`, the produced GlyphOrder is
`['.notdef', 'A', 'tofu']` — three glyphs, not two. -/
theorem C3_composite_not_two_glyphs :
    (compositeBuild compositeFontExample).map Prod.fst =
      some [".notdef", "A", GLYPH_NAME] ∧
    ¬ ([".notdef", "A", GLYPH_NAME] : List String).length = 2 := by
  refine ⟨by decide, by decide⟩

/-- C2 amended: for every valid rectangle pair — the inner rectangle being
the outer inset by a stroke width `s` with `s*2 < min(width, height)` —
the drawing sequence of `drawTofuGlyph` produces a glyph with exactly ONE
contour (not two): its 10-point sequence traverses the outer rectangle
clockwise starting at its bottom-left corner (the first four-corner loop
has negative signed area) and then the inner rectangle counter-clockwise
starting at its bottom-left corner (the second loop has positive signed
area). -/
theorem C2_one_contour_two_windings (outer : Rectangle) (s : Int)
    (hs : 0 < s) (hw : 2 * s < outer.width) (hh : 2 * s < outer.height) :
    (drawTofuPen outer (outer.inset s)).numberOfContours = 1 ∧
    (drawTofuPen outer (outer.inset s)).points =
      [(outer.left, outer.bottom), (outer.left, outer.top),
       (outer.right, outer.top), (outer.right, outer.bottom),
       (outer.left, outer.bottom),
       ((outer.inset s).left, (outer.inset s).bottom),
       ((outer.inset s).right, (outer.inset s).bottom),
       ((outer.inset s).right, (outer.inset s).top),
       ((outer.inset s).left, (outer.inset s).top),
       ((outer.inset s).left, (outer.inset s).bottom)] ∧
    shoelace2 ((drawTofuPen outer (outer.inset s)).points.take 4) =
      -(2 * outer.width * outer.height) ∧
    shoelace2 ((drawTofuPen outer (outer.inset s)).points.take 4) < 0 ∧
    shoelace2 (((drawTofuPen outer (outer.inset s)).points.drop 5).take 4) =
      2 * (outer.inset s).width * (outer.inset s).height ∧
    0 < shoelace2 (((drawTofuPen outer (outer.inset s)).points.drop 5).take 4) := by
  obtain ⟨t, r, b, l⟩ := outer
  simp only [Rectangle.width, Rectangle.height, Rectangle.inset] at *
  have hsne : ¬ (s = 0) := by omega
  have key : drawTofuPen ⟨t, r, b, l⟩ ⟨t - s, r - s, b + s, l + s⟩ =
      ⟨[(l, b), (l, t), (r, t), (r, b), (l, b),
        (l + s, b + s), (r - s, b + s), (r - s, t - s), (l + s, t - s), (l + s, b + s)], [9]⟩ := by
    show penClosePath ⟨[(l, b), (l, t), (r, t), (r, b), (l, b),
        (l + s, b + s), (r - s, b + s), (r - s, t - s), (l + s, t - s), (l + s, b + s)], []⟩ = _
    simp only [penClosePath]
    norm_num [Prod.ext_iff, List.getD, hsne]
  rw [key]
  have houter : shoelace2 [(l, b), (l, t), (r, t), (r, b)] = -(2 * (r - l) * (t - b)) := by
    simp [shoelace2]
    ring
  have hinner : shoelace2 [(l + s, b + s), (r - s, b + s), (r - s, t - s), (l + s, t - s)] =
      2 * (r - s - (l + s)) * (t - s - (b + s)) := by
    simp [shoelace2]
    ring
  have hw0 : (0 : Int) < r - l := by omega
  have hh0 : (0 : Int) < t - b := by omega
  have hwi : (0 : Int) < r - s - (l + s) := by omega
  have hhi : (0 : Int) < t - s - (b + s) := by omega
  refine ⟨rfl, rfl, houter, ?_, hinner, ?_⟩
  · show shoelace2 [(l, b), (l, t), (r, t), (r, b)] < 0
    rw [houter]
    nlinarith [mul_pos hw0 hh0]
  · show 0 < shoelace2 [(l + s, b + s), (r - s, b + s), (r - s, t - s), (l + s, t - s)]
    rw [hinner]
    nlinarith [mul_pos hwi hhi]

/-- C2 witness: the amended contour theorem instantiated at the built-in
rectangles (`TOFU_OUTER_RECT`, stroke width 50). -/
theorem C2_one_contour_two_windings_witness :
    (drawTofuPen TOFU_OUTER_RECT (TOFU_OUTER_RECT.inset STROKE_WIDTH)).numberOfContours = 1 ∧
    shoelace2 ((drawTofuPen TOFU_OUTER_RECT
      (TOFU_OUTER_RECT.inset STROKE_WIDTH)).points.take 4) < 0 ∧
    0 < shoelace2 (((drawTofuPen TOFU_OUTER_RECT
      (TOFU_OUTER_RECT.inset STROKE_WIDTH)).points.drop 5).take 4) :=
  ⟨(C2_one_contour_two_windings TOFU_OUTER_RECT STROKE_WIDTH
      (by decide) (by decide) (by decide)).1,
   (C2_one_contour_two_windings TOFU_OUTER_RECT STROKE_WIDTH
      (by decide) (by decide) (by decide)).2.2.2.1,
   (C2_one_contour_two_windings TOFU_OUTER_RECT STROKE_WIDTH
      (by decide) (by decide) (by decide)).2.2.2.2.2⟩

/-- C8: the horizontal-metrics table of tofu.py `createTtf` has exactly
one `(advanceWidth, leftSideBearing)` pair per glyph, in GlyphOrder order;
the tofu glyph's pair is `(600, 50)`, and 50 is the minimum x-coordinate
across the glyph's contour points. -/
theorem C8_metrics_in_glyph_order :
    createTtf_metrics.map Prod.fst = createTtf_glyph_order ∧
    createTtf_metrics =
      [(".notdef", (ADVANCE_WIDTH, 0)), (GLYPH_NAME, (ADVANCE_WIDTH, 50))] ∧
    dictGet createTtf_metrics GLYPH_NAME = some (600, 50) ∧
    ((drawTofuGlyph 50).points.map (fun p => p.1)).contains 50 = true ∧
    ((drawTofuGlyph 50).points.map (fun p => p.1)).all (fun x => 50 ≤ x) = true := by
  refine ⟨by decide, by decide, by decide, by decide, by decide⟩

/-- C4: when `support_composite` is false, `_build_ttf` scans the glyph
names in order, skips `.notdef`, and selects the first glyph whose contour
count is nonzero; the build keeps only `.notdef` and that glyph (with its
metrics). -/
theorem C4_first_visible_selected (f : SrcFont) (g : String)
    (hfind : (f.glyphNames.filter (fun nm => nm ≠ ".notdef")).find?
        (fun nm => f.numberOfContours nm ≠ 0) = some g) :
    simpleLoop f = (some g, some g) ∧
    simpleBuild f = some ([".notdef", GLYPH_NAME],
      [(".notdef", f.hmtx ".notdef"), (GLYPH_NAME, f.hmtx g)]) := by
  have h1 : simpleLoop f = (some g, some g) :=
    simpleLoopAux_find f.numberOfContours f.glyphNames g hfind (none, none)
  refine ⟨h1, ?_⟩
  unfold simpleBuild
  rw [h1]

/-- C4 witness: spec scenario 3 — over glyphs `.notdef` (empty),
`A` (empty), `B` (2 contours), `C` (1 contour), selection picks `B`. -/
theorem C4_first_visible_selected_witness :
    simpleLoop scenarioFont = (some "B", some "B") ∧
    simpleBuild scenarioFont = some ([".notdef", GLYPH_NAME],
      [(".notdef", scenarioFont.hmtx ".notdef"), (GLYPH_NAME, scenarioFont.hmtx "B")]) :=
  C4_first_visible_selected scenarioFont "B" (by decide)

/-- C5 amended: when every glyph besides `.notdef` has zero contours, the
selection does not fail — there is no `NoVisibleGlyphFound` error in the
code: the loop falls through, leaving `glyph` bound to the last
non-`.notdef` glyph (an empty glyph, used as the tofu glyph) and `n` to
the last scanned name; only when the font has no glyph besides `.notdef`
at all does the build stop, with an unbound local variable. -/
theorem C5_all_empty_selects_last (f : SrcFont)
    (h : ∀ nm ∈ f.glyphNames, nm ≠ ".notdef" → f.numberOfContours nm = 0) :
    (simpleLoop f).2 = (f.glyphNames.filter (fun nm => nm ≠ ".notdef")).getLast? ∧
    (simpleLoop f).1 = f.glyphNames.getLast? := by
  have h2 : simpleLoop f = (f.glyphNames.getLast?.elim none some,
      ((f.glyphNames.filter (fun nm => nm ≠ ".notdef")).getLast?).elim none some) :=
    simpleLoopAux_all_zero f.numberOfContours f.glyphNames h none none
  rw [h2]
  exact ⟨option_elim_none _, option_elim_none _⟩

/-- C5 witness: the amended theorem instantiated at the all-empty font
`.notdef, A, B` — the loop ends with `B`. -/
theorem C5_all_empty_selects_last_witness :
    (simpleLoop emptyGlyphsFont).2 =
      (emptyGlyphsFont.glyphNames.filter (fun nm => nm ≠ ".notdef")).getLast? ∧
    (simpleLoop emptyGlyphsFont).1 = emptyGlyphsFont.glyphNames.getLast? :=
  C5_all_empty_selects_last emptyGlyphsFont (by decide)

/-- C3 amended: only the `support_composite = false` mode produces exactly
a two-glyph GlyphOrder (`.notdef` at index 0, the chosen glyph renamed to
`tofu` at index 1, with its original metrics carried over).  In the
`support_composite = true` mode the GlyphOrder instead retains every
non-`space` glyph of the source font, with the last one replaced by
`tofu`; that renamed glyph carries over the original glyph's horizontal
metrics (provided no source glyph is already named `tofu`). -/
theorem C3_glyph_order_by_mode :
    (∀ (f : SrcFont) (g : String),
      (f.glyphNames.filter (fun nm => nm ≠ ".notdef")).find?
          (fun nm => f.numberOfContours nm ≠ 0) = some g →
      simpleBuild f = some ([".notdef", GLYPH_NAME],
        [(".notdef", f.hmtx ".notdef"), (GLYPH_NAME, f.hmtx g)])) ∧
    (∀ (f : SrcFont) (lastName : String),
      (f.glyphNames.filter (fun nm => nm ≠ "space")).getLast? = some lastName →
      lastName ≠ GLYPH_NAME →
      (compositeBuild f).map Prod.fst =
        some ((f.glyphNames.filter (fun nm => nm ≠ "space")).dropLast ++ [GLYPH_NAME]) ∧
      (compositeBuild f).bind (fun res => dictGet res.2 GLYPH_NAME) =
        some (f.hmtx lastName)) := by
  constructor
  · intro f g hfind
    have h1 : simpleLoop f = (some g, some g) :=
      simpleLoopAux_find f.numberOfContours f.glyphNames g hfind (none, none)
    unfold simpleBuild
    rw [h1]
  · intro f lastName hlast hne
    have hmem : lastName ∈ f.glyphNames.filter (fun nm => nm ≠ "space") :=
      List.mem_of_getLast?_eq_some hlast
    have hget0 : dictGet ((f.glyphNames.filter (fun nm => nm ≠ "space")).map
        (fun n => (n, f.hmtx n))) lastName = some (f.hmtx lastName) :=
      dictGet_map_self f.hmtx lastName _ hmem
    have hcb : compositeBuild f = some
        ((f.glyphNames.filter (fun nm => nm ≠ "space")).dropLast ++ [GLYPH_NAME],
         dictDel (dictSet ((f.glyphNames.filter (fun nm => nm ≠ "space")).map
             (fun n => (n, f.hmtx n))) GLYPH_NAME
             ((dictGet ((f.glyphNames.filter (fun nm => nm ≠ "space")).map
               (fun n => (n, f.hmtx n))) lastName).getD (0, 0))) lastName) := by
      simp only [compositeBuild]
      rw [hlast]
    rw [hcb]
    refine ⟨rfl, ?_⟩
    show dictGet (dictDel (dictSet ((f.glyphNames.filter (fun nm => nm ≠ "space")).map
        (fun n => (n, f.hmtx n))) GLYPH_NAME
        ((dictGet ((f.glyphNames.filter (fun nm => nm ≠ "space")).map
          (fun n => (n, f.hmtx n))) lastName).getD (0, 0))) lastName) GLYPH_NAME =
      some (f.hmtx lastName)
    rw [dictGet_dictDel_ne GLYPH_NAME lastName (fun hh => hne hh.symm),
      dictGet_dictSet_self, hget0]
    rfl

/-- C3 witness: both parts of the amended theorem instantiated — the
simple mode at scenario 3's font (selecting `B`), the composite mode at
the four-glyph font with a `space` glyph (GlyphOrder
`['.notdef', 'A', 'tofu']` with `B`'s metrics on `tofu`). -/
theorem C3_glyph_order_by_mode_witness :
    simpleBuild scenarioFont = some ([".notdef", GLYPH_NAME],
      [(".notdef", scenarioFont.hmtx ".notdef"), (GLYPH_NAME, scenarioFont.hmtx "B")]) ∧
    (compositeBuild compositeFontExample).map Prod.fst =
      some ((compositeFontExample.glyphNames.filter
        (fun nm => nm ≠ "space")).dropLast ++ [GLYPH_NAME]) ∧
    (compositeBuild compositeFontExample).bind (fun res => dictGet res.2 GLYPH_NAME) =
      some (compositeFontExample.hmtx "B") :=
  ⟨C3_glyph_order_by_mode.1 scenarioFont "B" (by decide),
   (C3_glyph_order_by_mode.2 compositeFontExample "B" (by decide) (by decide)).1,
   (C3_glyph_order_by_mode.2 compositeFontExample "B" (by decide) (by decide)).2⟩
